import Mathlib

/-!
Verification of the elastic fleet reconciliation engine of the
charm-aws repository (src/aws.py, class CharmCloudManager).

The Python code is shallowly embedded: each instance dictionary becomes a
`Member` structure, the mutable `self.active_instances` roster is passed
explicitly, the AWS provider responses are passed as explicit state, and
the SSH layer is modelled by an outcome value handed to `run_command`.
-/

set_option autoImplicit false

namespace CharmAws

/-- Instance lifecycle as stored in the `lifecycle` key of an instance
dictionary: the string `on-demand` or the string `spot`. -/
inductive Lifecycle where
  | onDemand
  | spot
deriving DecidableEq, Repr

/-- One entry of `self.active_instances`: the instance dictionary built by
`launch` / `check_replacement_instances` in src/aws.py, restricted to the
keys the reconciliation engine reads. -/
structure Member where
  instance_id : String
  instance_type : String
  lifecycle : Lifecycle
  vcpus : Nat
  private_dns : String
  public_dns : String
  private_ip : String
  public_ip : String
deriving DecidableEq, Repr

/-- Sum of the `vcpus` fields of a list of instances, as in the Python
expression `sum([i["vcpus"] for i in lst])`. -/
def totalVcpus (l : List Member) : Nat :=
  (l.map (fun m => m.vcpus)).sum

/-- Prefix sum of `vcpus` over the first `i` members of the roster: the
ProcessingElementIndex offset of member `i` in roster order. -/
def offsetAt (roster : List Member) (i : Nat) : Nat :=
  ((roster.take i).map (fun m => m.vcpus)).sum

/-- The loop of `CharmCloudManager.find_killed_pes` (src/aws.py lines
971-979): `c` is the running `current_pes` counter; an interrupted member
contributes `range(current_pes, current_pes + vcpus)` to the result. -/
def findKilledAux : List Member → List String → Nat → List Nat
  | [], _, _ => []
  | inst :: rest, interrupted, c =>
      (if inst.instance_id ∈ interrupted then
        (List.range inst.vcpus).map (fun j => c + j)
      else []) ++ findKilledAux rest interrupted (c + inst.vcpus)

/-- `CharmCloudManager.find_killed_pes(interrupted_instances)` with the
roster `self.active_instances` passed explicitly. -/
def find_killed_pes (active_instances : List Member) (interrupted_instances : List String) : List Nat :=
  findKilledAux active_instances interrupted_instances 0

/-- One line of the Charm++ nodelist file, as formatted by both
`write_nodelist_file` and `update_nodelist_file` in src/aws.py:
the address, a space, `slots=` and the vcpu count, with a trailing newline. -/
def nodeLine (m : Member) : String :=
  m.private_dns ++ " slots=" ++ toString m.vcpus ++ "\n"

/-- The loop body of `CharmCloudManager.write_nodelist_file` (src/aws.py
lines 747-761): `s` is the running `nodelist_str`, `upd` the running
`updated_instances`, `master` the (possibly still unassigned) local
variable `master`.  An on-demand instance prepends its line and itself and
becomes the new `master`; any other instance appends. -/
def writeLoop : List Member → String → List Member → Option Member →
    String × List Member × Option Member
  | [], s, upd, master => (s, upd, master)
  | inst :: rest, s, upd, master =>
      match inst.lifecycle with
      | .onDemand => writeLoop rest (nodeLine inst ++ s) (inst :: upd) (some inst)
      | .spot => writeLoop rest (s ++ nodeLine inst) (upd ++ [inst]) master

/-- The pure part of `CharmCloudManager.write_nodelist_file(filename)`:
the serialized nodelist string, the reordered roster committed to
`self.active_instances`, and the `master` local variable (`none` when it
was never assigned). -/
def write_nodelist_core (active_instances : List Member) :
    String × List Member × Option Member :=
  writeLoop active_instances "" [] none

/-- `CharmCloudManager.write_nodelist_file(filename)` as observed by its
caller: on a roster with an on-demand member it returns the master together
with the committed roster and the serialized content; on a roster with no
on-demand member the final read of the local variable `master` raises
`UnboundLocalError`, modelled as `none`. -/
def write_nodelist_file (active_instances : List Member) :
    Option (Member × List Member × String) :=
  match write_nodelist_core active_instances with
  | (s, upd, some master) => some (master, upd, s)
  | (_, _, none) => none

/-- First loop of `CharmCloudManager.update_nodelist_file` (src/aws.py
lines 774-777): append a line for every active instance whose id is not in
`interrupted_instances`. -/
def updateKeptLoop : List Member → List String → String → String
  | [], _, s => s
  | inst :: rest, interrupted, s =>
      if inst.instance_id ∈ interrupted then updateKeptLoop rest interrupted s
      else updateKeptLoop rest interrupted (s ++ nodeLine inst)

/-- Second loop of `CharmCloudManager.update_nodelist_file` (src/aws.py
lines 779-780): append a line for every new instance. -/
def updateNewLoop : List Member → String → String
  | [], s => s
  | inst :: rest, s => updateNewLoop rest (s ++ nodeLine inst)

/-- The nodelist content built by `update_nodelist_file`. -/
def update_nodelist_str (active_instances : List Member)
    (interrupted_instances : List String) (new_instances : List Member) : String :=
  updateNewLoop new_instances (updateKeptLoop active_instances interrupted_instances "")

/-- `CharmCloudManager.update_nodelist_file` (src/aws.py lines 770-791) as
observed by its caller: it never reassigns `self.active_instances` (the
commit is commented out in the source), takes `master =
self.active_instances[0]` (an `IndexError`, modelled as `none`, on an empty
roster) and returns it.  The result triple is (master, serialized content,
roster after the call). -/
def update_nodelist_file (active_instances : List Member)
    (interrupted_instances : List String) (new_instances : List Member) :
    Option (Member × String × List Member) :=
  match active_instances with
  | [] => none
  | master :: _ =>
      some (master, update_nodelist_str active_instances interrupted_instances new_instances,
            active_instances)

/-- Outcome of the `asyncssh.connect`/`create_process` session inside
`run_command`: either the remote process ran and produced an exit status
with its streamed output, or an `OSError` / `asyncssh.Error` was raised
with the given exception text. -/
inductive SessionOutcome where
  | established (exitStatus : Nat) (stdout stderr : String)
  | connectionError (excMsg : String)
deriving DecidableEq, Repr

/-- Return value of `run_command`: a dict with captured output when
`capture_output=True`, a bare exit status otherwise. -/
inductive RunResult where
  | captured (exit_status : Nat) (stdout stderr : String)
  | plain (exit_status : Nat)
deriving DecidableEq, Repr

/-- The diagnostic built in the `except` branch of `run_command`
(src/aws.py line 864). -/
def sshErrorMsg (command excMsg : String) : String :=
  "SSH connection failed in " ++ command ++ ": " ++ excMsg

/-- `CharmCloudManager.run_command(command, public_ip, ...)` (src/aws.py
lines 793-882) with the session outcome passed explicitly: on success it
returns the remote exit status (with output when capturing); on an
`OSError` / `asyncssh.Error` it returns the synthetic status 255, and when
capturing an empty stdout with the diagnostic as stderr. -/
def run_command (command : String) (session : SessionOutcome)
    (capture_output : Bool) : RunResult :=
  match session with
  | .established st out err =>
      if capture_output then .captured st out err else .plain st
  | .connectionError excMsg =>
      if capture_output then .captured 255 "" (sshErrorMsg command excMsg)
      else .plain 255

/-- The exit status carried by a `RunResult`. -/
def RunResult.exitStatus : RunResult → Nat
  | .captured st _ _ => st
  | .plain st => st

/-- The spot interruption marker searched for in the metadata response by
`check_interruptions` (src/aws.py line 917). -/
def terminateMarker : String := "\"action\":\"terminate\""

/-- Whether the captured stdout of the metadata probe contains the
interruption marker, the Python test `marker in output`. -/
def hasTerminateAction (output : String) : Bool :=
  decide (terminateMarker.toList <:+: output.toList)

/-- The loop of `CharmCloudManager.check_interruptions` (src/aws.py lines
907-923): `probe inst` is the stdout captured from the metadata query on
that instance (`none` when the per-instance try/except caught an
exception); `n` is the running `num_interruptions`, `acc` the mutable
`interrupted_instances` list, appended to in place. -/
def checkLoop : List Member → (Member → Option String) → Nat → List String →
    Nat × List String
  | [], _, n, acc => (n, acc)
  | inst :: rest, probe, n, acc =>
      match inst.lifecycle with
      | .spot =>
          match probe inst with
          | some output =>
              if hasTerminateAction output then
                checkLoop rest probe (n + 1) (acc ++ [inst.instance_id])
              else checkLoop rest probe n acc
          | none => checkLoop rest probe n acc
      | .onDemand => checkLoop rest probe n acc

/-- `CharmCloudManager.check_interruptions(instances, interrupted_instances)`
(src/aws.py lines 884-924): raises `ValueError` on an empty instance list,
otherwise returns the number of interruption notices seen this cycle and
the grown cumulative interrupted-id list. -/
def check_interruptions (instances : List Member)
    (interrupted_instances : List String) (probe : Member → Option String) :
    Except String (Nat × List String) :=
  if instances.isEmpty then
    .error "At least one instance ID must be provided"
  else
    .ok (checkLoop instances probe 0 interrupted_instances)

/-- Provider-side state read by `check_replacement_instances`: the fleet
membership from `describe_fleet_instances`, the per-instance attributes
from `describe_instances`, and the instance-type vCPU table from
`get_vcpus` / `describe_instance_types`. -/
structure InstAttrs where
  instanceType : String
  isSpot : Bool
  private_dns : String
  public_dns : String
  private_ip : String
  public_ip : String

structure ProviderState where
  activeIds : List String
  attrs : String → InstAttrs
  vcpusOfType : String → Nat

/-- The instance dictionary built for one novel instance id inside
`check_replacement_instances` (src/aws.py lines 946-957): the id and
attributes come from the `describe_instances` response, the vcpu count
from the `get_vcpus` lookup on the instance type. -/
def mkMemberFromProvider (p : ProviderState) (id : String) : Member :=
  let a := p.attrs id
  { instance_id := id
    instance_type := a.instanceType
    lifecycle := if a.isSpot then .spot else .onDemand
    vcpus := p.vcpusOfType a.instanceType
    private_dns := a.private_dns
    public_dns := a.public_dns
    private_ip := a.private_ip
    public_ip := a.public_ip }

/-- `CharmCloudManager.check_replacement_instances(instance_ids, fleet_id)`
(src/aws.py lines 926-966) with the provider state passed explicitly and
`self.interrupted_instances` as `interrupted_instances`: keep every active
fleet id that is neither already known nor already interrupted, and fetch
full attributes for each; when no novel id exists the function returns the
empty list. -/
def check_replacement_instances (instance_ids : List String)
    (interrupted_instances : List String) (p : ProviderState) : List Member :=
  let new_instances := p.activeIds.filter
    (fun id => decide (id ∉ instance_ids ∧ id ∉ interrupted_instances))
  new_instances.map (mkMemberFromProvider p)

/-- The fixed rescale client executable path (src/aws.py line 982). -/
def clientPath : String := "/home/ec2-user/charm/examples/charm++/shrink_expand/client"

/-- Python `" ".join(strs)`. -/
def joinSpace : List String → String
  | [] => ""
  | [a] => a
  | a :: b :: rest => a ++ " " ++ joinSpace (b :: rest)

/-- The `rescale_command` f-string built by `CharmCloudManager.send_signal`
(src/aws.py lines 984-986), evaluated against the pre-mutation roster
`self.active_instances`. -/
def rescale_command (master : Member) (active_instances : List Member)
    (interrupted_instances : List String) (new_instances : List Member) : String :=
  clientPath ++ " " ++ master.private_ip ++ " 1234 "
    ++ toString (totalVcpus active_instances) ++ " "
    ++ toString (find_killed_pes active_instances interrupted_instances).length ++ " "
    ++ joinSpace ((find_killed_pes active_instances interrupted_instances).map toString)
    ++ " " ++ toString (totalVcpus new_instances)

/-- The roster commit at the end of `CharmCloudManager.send_signal`
(src/aws.py lines 989-993): drop every interrupted member, append the new
members at the tail. -/
def commitRoster (active_instances : List Member)
    (interrupted_instances : List String) (new_instances : List Member) : List Member :=
  (active_instances.filter (fun m => decide (m.instance_id ∉ interrupted_instances)))
    ++ new_instances

/-- Concatenation of the nodelist lines of a list of members: the
serialized form "one line per member, in list order". -/
def linesOf : List Member → String
  | [] => ""
  | m :: rest => nodeLine m ++ linesOf rest

/-- Number of space characters in a string. -/
def countSpaces (s : String) : Nat := s.data.count ' '

/-! Concrete instances used in the scenario checks below.  They mirror the
rosters of the spec examples: `memA`, `memB`, `memC` for the killed-index
example, and `memM`, `memS1`, `memS2`, `memS3` for the end-to-end
shrink/expand scenario. -/

def memA : Member :=
  { instance_id := "i-a", instance_type := "c5.xlarge", lifecycle := .spot,
    vcpus := 4, private_dns := "ip-10-0-0-10.ec2.internal",
    public_dns := "ec2-a.compute.amazonaws.com",
    private_ip := "10.0.0.10", public_ip := "3.3.3.10" }

def memB : Member :=
  { instance_id := "i-b", instance_type := "c5.large", lifecycle := .spot,
    vcpus := 2, private_dns := "ip-10-0-0-11.ec2.internal",
    public_dns := "ec2-b.compute.amazonaws.com",
    private_ip := "10.0.0.11", public_ip := "3.3.3.11" }

def memC : Member :=
  { instance_id := "i-c", instance_type := "c5.xlarge", lifecycle := .spot,
    vcpus := 4, private_dns := "ip-10-0-0-12.ec2.internal",
    public_dns := "ec2-c.compute.amazonaws.com",
    private_ip := "10.0.0.12", public_ip := "3.3.3.12" }

def memM : Member :=
  { instance_id := "i-m", instance_type := "c5.xlarge", lifecycle := .onDemand,
    vcpus := 4, private_dns := "ip-10-0-0-1.ec2.internal",
    public_dns := "ec2-m.compute.amazonaws.com",
    private_ip := "10.0.0.1", public_ip := "3.3.3.1" }

def memS1 : Member :=
  { instance_id := "i-s1", instance_type := "c5.xlarge", lifecycle := .spot,
    vcpus := 4, private_dns := "ip-10-0-0-2.ec2.internal",
    public_dns := "ec2-s1.compute.amazonaws.com",
    private_ip := "10.0.0.2", public_ip := "3.3.3.2" }

def memS2 : Member :=
  { instance_id := "i-s2", instance_type := "c5.xlarge", lifecycle := .spot,
    vcpus := 4, private_dns := "ip-10-0-0-3.ec2.internal",
    public_dns := "ec2-s2.compute.amazonaws.com",
    private_ip := "10.0.0.3", public_ip := "3.3.3.3" }

def memS3 : Member :=
  { instance_id := "i-s3", instance_type := "c5.xlarge", lifecycle := .spot,
    vcpus := 4, private_dns := "ip-10-0-0-4.ec2.internal",
    public_dns := "ec2-s3.compute.amazonaws.com",
    private_ip := "10.0.0.4", public_ip := "3.3.3.4" }

/-! ## Helper lemmas -/

theorem offsetAt_zero (roster : List Member) : offsetAt roster 0 = 0 := rfl

theorem offsetAt_cons (m : Member) (rest : List Member) (i : Nat) :
    offsetAt (m :: rest) (i + 1) = m.vcpus + offsetAt rest i := by
  simp [offsetAt, List.take_succ_cons]

/-- Membership characterization of the `find_killed_pes` loop: with the
`current_pes` counter started at `c`, index `j` is collected exactly when
some roster position `i` is interrupted and `j` falls inside the shifted
vcpu range of position `i`. -/
theorem mem_findKilledAux : ∀ (roster : List Member) (interr : List String) (c j : Nat),
    j ∈ findKilledAux roster interr c ↔
      ∃ i, ∃ h : i < roster.length,
        (roster.get ⟨i, h⟩).instance_id ∈ interr ∧
        c + offsetAt roster i ≤ j ∧
        j < c + offsetAt roster i + (roster.get ⟨i, h⟩).vcpus
  | [], interr, c, j => by simp [findKilledAux]
  | m :: rest, interr, c, j => by
      have ih := mem_findKilledAux rest interr (c + m.vcpus) j
      simp only [findKilledAux, List.mem_append]
      constructor
      · rintro (h1 | h2)
        · by_cases hm : m.instance_id ∈ interr
          · rw [if_pos hm] at h1
            simp only [List.mem_map, List.mem_range] at h1
            obtain ⟨k, hk, rfl⟩ := h1
            refine ⟨0, Nat.succ_pos _, ?_, ?_, ?_⟩
            · simpa using hm
            · simp [offsetAt_zero]
            · simp only [List.get, offsetAt_zero, Nat.add_zero]
              omega
          · rw [if_neg hm] at h1
            simp at h1
        · obtain ⟨i, hi, hmem, hle, hlt⟩ := ih.mp h2
          refine ⟨i + 1, Nat.succ_lt_succ hi, ?_, ?_, ?_⟩
          · simpa using hmem
          · rw [offsetAt_cons]
            omega
          · rw [offsetAt_cons]
            simp only [List.get]
            omega
      · rintro ⟨i, hi, hmem, hle, hlt⟩
        match i with
        | 0 =>
            left
            rw [if_pos (by simpa using hmem)]
            simp only [List.mem_map, List.mem_range]
            simp only [List.get, offsetAt_zero, Nat.add_zero] at hle hlt
            exact ⟨j - c, by omega, by omega⟩
        | i + 1 =>
            right
            refine ih.mpr ⟨i, Nat.lt_of_succ_lt_succ hi, ?_, ?_, ?_⟩
            · simpa using hmem
            · rw [offsetAt_cons] at hle
              omega
            · rw [offsetAt_cons] at hlt
              simp only [List.get] at hlt
              omega

theorem linesOf_append (l₁ l₂ : List Member) :
    linesOf (l₁ ++ l₂) = linesOf l₁ ++ linesOf l₂ := by
  induction l₁ with
  | nil => simp [linesOf, String.empty_append]
  | cons m rest ih => simp [linesOf, ih, String.append_assoc]

/-- Running the `write_nodelist_file` loop over a spot-only segment appends
its lines to the string, appends the segment to the committed list, and
leaves `master` untouched. -/
theorem writeLoop_spot_segment : ∀ (seg rest : List Member) (s : String)
    (upd : List Member) (master : Option Member),
    (∀ m ∈ seg, m.lifecycle = Lifecycle.spot) →
    writeLoop (seg ++ rest) s upd master =
      writeLoop rest (s ++ linesOf seg) (upd ++ seg) master
  | [], rest, s, upd, master, _ => by
      simp [linesOf, String.append_empty]
  | m :: seg, rest, s, upd, master, h => by
      have hm : m.lifecycle = Lifecycle.spot := h m (by simp)
      have ih := writeLoop_spot_segment seg rest (s ++ nodeLine m) (upd ++ [m]) master
        (fun x hx => h x (by simp [hx]))
      simp only [List.cons_append, writeLoop, hm]
      exact ih.trans (by simp [linesOf, String.append_assoc])

/-- If the roster holds no on-demand member at all, the loop appends every
line in roster order and never assigns `master`. -/
theorem writeLoop_all_spot (roster : List Member) (s : String)
    (upd : List Member) (master : Option Member)
    (h : ∀ m ∈ roster, m.lifecycle = Lifecycle.spot) :
    writeLoop roster s upd master = (s ++ linesOf roster, upd ++ roster, master) := by
  have := writeLoop_spot_segment roster [] s upd master h
  simpa [writeLoop] using this

/-- Once `master` holds an on-demand member, it still holds an on-demand
member when the loop finishes. -/
theorem writeLoop_master_stays_onDemand : ∀ (roster : List Member) (s : String)
    (upd : List Member) (m0 : Member), m0.lifecycle = Lifecycle.onDemand →
    ∃ m', (writeLoop roster s upd (some m0)).2.2 = some m' ∧
      m'.lifecycle = Lifecycle.onDemand
  | [], _, _, m0, h0 => ⟨m0, rfl, h0⟩
  | m :: rest, s, upd, m0, h0 => by
      match hm : m.lifecycle with
      | .onDemand =>
          simpa [writeLoop, hm] using
            writeLoop_master_stays_onDemand rest (nodeLine m ++ s) (m :: upd) m hm
      | .spot =>
          simpa [writeLoop, hm] using
            writeLoop_master_stays_onDemand rest (s ++ nodeLine m) (upd ++ [m]) m0 h0

/-- If some roster member is on-demand, the loop ends with `master`
assigned to an on-demand member. -/
theorem writeLoop_master_of_mem_onDemand : ∀ (roster : List Member) (s : String)
    (upd : List Member) (master : Option Member),
    (∃ m ∈ roster, m.lifecycle = Lifecycle.onDemand) →
    ∃ m', (writeLoop roster s upd master).2.2 = some m' ∧
      m'.lifecycle = Lifecycle.onDemand
  | [], _, _, _, h => by simp at h
  | m :: rest, s, upd, master, h => by
      match hm : m.lifecycle with
      | .onDemand =>
          simpa [writeLoop, hm] using
            writeLoop_master_stays_onDemand rest (nodeLine m ++ s) (m :: upd) m hm
      | .spot =>
          obtain ⟨x, hx, hxod⟩ := h
          have hxr : x ∈ rest := by
            rcases List.mem_cons.mp hx with rfl | hxr
            · rw [hm] at hxod; cases hxod
            · exact hxr
          simpa [writeLoop, hm] using
            writeLoop_master_of_mem_onDemand rest (s ++ nodeLine m) (upd ++ [m]) master
              ⟨x, hxr, hxod⟩

/-- A member is on-demand exactly when it is not spot. -/
theorem lifecycle_not_onDemand {m : Member}
    (h : m.lifecycle ≠ Lifecycle.onDemand) : m.lifecycle = Lifecycle.spot := by
  cases hm : m.lifecycle
  · exact absurd hm h
  · rfl

/-! ## Claim theorems -/

/-- Claim C1: for every roster of members with positive processing-unit
counts and every interrupted-id set, `find_killed_pes` returns exactly the
processing-element indices occupied by the interrupted members under the
pre-mutation roster ordering, where member `i` occupies
`[offsetAt roster i, offsetAt roster i + vcpus i)` and `offsetAt` is the
prefix sum of `vcpus`; in particular on the roster
`[A(vcpu=4), B(vcpu=2), C(vcpu=4)]` with interrupted ids `{B.id}` the
result is `{4, 5}`. -/
theorem find_killed_pes_correct :
    (∀ (roster : List Member) (interr : List String),
      (∀ m ∈ roster, 0 < m.vcpus) →
      ∀ j, j ∈ find_killed_pes roster interr ↔
        ∃ i, ∃ h : i < roster.length,
          (roster.get ⟨i, h⟩).instance_id ∈ interr ∧
          offsetAt roster i ≤ j ∧
          j < offsetAt roster i + (roster.get ⟨i, h⟩).vcpus)
    ∧ find_killed_pes [memA, memB, memC] [memB.instance_id] = [4, 5] := by
  constructor
  · intro roster interr _ j
    simpa using mem_findKilledAux roster interr 0 j
  · rfl

/-- Witness for C1: the general characterization applied to the concrete
three-member roster, at processing-element index 5. -/
theorem find_killed_pes_correct_witness :
    5 ∈ find_killed_pes [memA, memB, memC] [memB.instance_id] :=
  (find_killed_pes_correct.1 [memA, memB, memC] [memB.instance_id]
      (by decide) 5).mpr ⟨1, by decide, by decide, by decide, by decide⟩

/-- Claim C2 counterexample: the roster `[S1 (spot), M (on-demand)]` is
non-empty and holds exactly one on-demand member, yet after the Publisher
operation `update_nodelist_file` (which never reorders the roster: the
commit in the source is commented out) the on-demand member is still at
position 1, not position 0, and the returned primary is the spot member. -/
theorem update_nodelist_no_master_first :
    ∃ r, update_nodelist_file [memS1, memM] [] [] = some r ∧
      r.2.2 = [memS1, memM] ∧
      [memS1, memM].filter (fun m => decide (m.lifecycle = Lifecycle.onDemand)) = [memM] ∧
      r.2.2.head? = some memS1 ∧
      memS1.lifecycle ≠ Lifecycle.onDemand ∧ memS1 ≠ memM := by
  refine ⟨_, rfl, rfl, by decide, rfl, by decide, by decide⟩

/-- Claim C2 (amended): after `write_nodelist_file` the unique on-demand
member of the roster is at position 0 of the committed roster;
`update_nodelist_file` returns the roster unchanged (so it keeps the
on-demand member at position 0 whenever it already was there, but does not
establish that placement itself); and the `send_signal` roster commit keeps
the head member in place whenever it is not interrupted. -/
theorem master_first_preserved :
    (∀ (roster : List Member) (od : Member),
      roster.filter (fun m => decide (m.lifecycle = Lifecycle.onDemand)) = [od] →
      ((write_nodelist_core roster).2.1).head? = some od)
    ∧ (∀ (roster : List Member) (interrupted : List String) (newMs : List Member)
        (r : Member × String × List Member),
      update_nodelist_file roster interrupted newMs = some r → r.2.2 = roster)
    ∧ (∀ (roster : List Member) (interrupted : List String) (newMs : List Member)
        (od : Member),
      roster.head? = some od → od.instance_id ∉ interrupted →
      (commitRoster roster interrupted newMs).head? = some od) := by
  refine ⟨?_, ?_, ?_⟩
  · intro roster od hf
    obtain ⟨l₁, l₂, hr, h₁, hpa, h₂⟩ := List.filter_eq_cons_iff.mp hf
    have hod : od.lifecycle = Lifecycle.onDemand := by simpa using hpa
    subst hr
    have h₁s : ∀ m ∈ l₁, m.lifecycle = Lifecycle.spot := fun m hm =>
      lifecycle_not_onDemand (by simpa using h₁ m hm)
    have h₂s : ∀ m ∈ l₂, m.lifecycle = Lifecycle.spot := by
      intro m hm
      refine lifecycle_not_onDemand (fun hod => ?_)
      have : m ∈ l₂.filter (fun m => decide (m.lifecycle = Lifecycle.onDemand)) :=
        List.mem_filter.mpr ⟨hm, by simp [hod]⟩
      rw [h₂] at this
      cases this
    unfold write_nodelist_core
    rw [writeLoop_spot_segment l₁ (od :: l₂) "" [] none h₁s]
    simp only [writeLoop, hod]
    rw [writeLoop_all_spot l₂ _ _ _ h₂s]
    simp
  · intro roster interrupted newMs r hr
    cases roster with
    | nil => cases hr
    | cons m rest =>
        simp only [update_nodelist_file, Option.some.injEq] at hr
        rw [← hr]
  · intro roster interrupted newMs od hhead hni
    cases roster with
    | nil => cases hhead
    | cons m rest =>
        have hm : m = od := by simpa using hhead
        subst hm
        simp [commitRoster, List.filter_cons, hni]

/-- Witness for C2 (amended): the three parts applied to concrete rosters
built from the scenario members. -/
theorem master_first_preserved_witness :
    ((write_nodelist_core [memS1, memM, memS2]).2.1).head? = some memM
    ∧ (memS1, update_nodelist_str [memS1, memM] [] [], [memS1, memM]).2.2 = [memS1, memM]
    ∧ (commitRoster [memM, memS1, memS2] [memS1.instance_id] [memS3]).head? = some memM :=
  ⟨master_first_preserved.1 [memS1, memM, memS2] memM (by decide),
   master_first_preserved.2.1 [memS1, memM] [] []
     (memS1, update_nodelist_str [memS1, memM] [] [], [memS1, memM]) rfl,
   master_first_preserved.2.2 [memM, memS1, memS2] [memS1.instance_id] [memS3] memM rfl
     (by decide)⟩

/-- Claim C10: `write_nodelist_file` is only defined on rosters with at
least one on-demand member, where it returns an on-demand member as the
primary; on a non-empty roster with no on-demand member the local variable
`master` is never assigned, so the final use of it fails (modelled as
`none`) instead of returning a value — even though the loop has already
serialized every member into the nodelist string. -/
theorem write_nodelist_file_definedness :
    (∀ roster : List Member, (∃ m ∈ roster, m.lifecycle = Lifecycle.onDemand) →
      ∃ master upd s, write_nodelist_file roster = some (master, upd, s) ∧
        master.lifecycle = Lifecycle.onDemand)
    ∧ (∀ roster : List Member, roster ≠ [] →
      (∀ m ∈ roster, m.lifecycle ≠ Lifecycle.onDemand) →
      write_nodelist_file roster = none ∧
        (write_nodelist_core roster).1 = linesOf roster) := by
  constructor
  · intro roster h
    obtain ⟨m', hm', hod⟩ := writeLoop_master_of_mem_onDemand roster "" [] none h
    have h2 : (write_nodelist_core roster).2.2 = some m' := hm'
    rcases hc : write_nodelist_core roster with ⟨s, upd, mo⟩
    rw [hc] at h2
    subst h2
    exact ⟨m', upd, s, by simp [write_nodelist_file, hc], hod⟩
  · intro roster _ hnod
    have hs : ∀ m ∈ roster, m.lifecycle = Lifecycle.spot := fun m hm =>
      lifecycle_not_onDemand (hnod m hm)
    have hc : write_nodelist_core roster = ("" ++ linesOf roster, [] ++ roster, none) :=
      writeLoop_all_spot roster "" [] none hs
    exact ⟨by simp [write_nodelist_file, hc], by rw [hc, String.empty_append]⟩

/-- Witness for C10: the roster `[S1, M]` has an on-demand member and
yields an on-demand primary; the spot-only roster `[A]` yields no primary
although its single member is serialized. -/
theorem write_nodelist_file_definedness_witness :
    (∃ master upd s, write_nodelist_file [memS1, memM] = some (master, upd, s) ∧
      master.lifecycle = Lifecycle.onDemand)
    ∧ (write_nodelist_file [memA] = none ∧
      (write_nodelist_core [memA]).1 = linesOf [memA]) :=
  ⟨write_nodelist_file_definedness.1 [memS1, memM] ⟨memM, by simp, rfl⟩,
   write_nodelist_file_definedness.2 [memA] (by decide) (by decide)⟩

theorem updateKeptLoop_eq : ∀ (roster : List Member) (interr : List String) (s : String),
    updateKeptLoop roster interr s =
      s ++ linesOf (roster.filter (fun m => decide (m.instance_id ∉ interr)))
  | [], interr, s => by simp [updateKeptLoop, linesOf, String.append_empty]
  | m :: rest, interr, s => by
      by_cases hm : m.instance_id ∈ interr
      · simp [updateKeptLoop, hm, updateKeptLoop_eq rest interr s, List.filter_cons]
      · simp [updateKeptLoop, hm, updateKeptLoop_eq rest interr (s ++ nodeLine m),
              List.filter_cons, linesOf, String.append_assoc]

theorem updateNewLoop_eq : ∀ (l : List Member) (s : String),
    updateNewLoop l s = s ++ linesOf l
  | [], s => by simp [updateNewLoop, linesOf, String.append_empty]
  | m :: rest, s => by
      simp [updateNewLoop, updateNewLoop_eq rest (s ++ nodeLine m), linesOf,
            String.append_assoc]

/-- The `write_nodelist_file` loop keeps its running string equal to the
serialization of its running member list. -/
theorem writeLoop_str_serializes : ∀ (roster : List Member) (s : String)
    (upd : List Member) (master : Option Member), s = linesOf upd →
    (writeLoop roster s upd master).1 = linesOf (writeLoop roster s upd master).2.1
  | [], s, upd, master, h => h
  | m :: rest, s, upd, master, h => by
      match hm : m.lifecycle with
      | .onDemand =>
          simp only [writeLoop, hm]
          exact writeLoop_str_serializes rest _ _ _ (by rw [h]; rfl)
      | .spot =>
          simp only [writeLoop, hm]
          refine writeLoop_str_serializes rest _ _ _ ?_
          rw [h, linesOf_append, linesOf, linesOf, String.append_empty]

/-- Claim C6 (amended): the incremental publish mode serializes exactly one
line per roster member whose id is not interrupted followed by one line per
new member; the full-rewrite mode serializes exactly one line per member of
the roster it commits; and both modes use the same per-line format, the
member address followed by a space and `slots=` with its vcpu count (with
no separate leading token field). -/
theorem nodelist_content :
    (∀ (roster : List Member) (interr : List String) (newMs : List Member),
      update_nodelist_str roster interr newMs =
        linesOf ((roster.filter (fun m => decide (m.instance_id ∉ interr))) ++ newMs))
    ∧ (∀ roster : List Member,
      (write_nodelist_core roster).1 = linesOf (write_nodelist_core roster).2.1)
    ∧ (∀ m : Member,
      nodeLine m = m.private_dns ++ " slots=" ++ toString m.vcpus ++ "\n") := by
  refine ⟨?_, ?_, fun _ => rfl⟩
  · intro roster interr newMs
    rw [update_nodelist_str, updateKeptLoop_eq, updateNewLoop_eq, String.empty_append,
        linesOf_append]
  · intro roster
    exact writeLoop_str_serializes roster "" [] none rfl

theorem countSpaces_append (s t : String) :
    countSpaces (s ++ t) = countSpaces s + countSpaces t := by
  simp [countSpaces, String.data_append, List.count_append]

/-- Claim C6 counterexample: a published line holds only two
space-separated fields — the address and the keyword=count pair — so it is
never of the three-field shape "token, address, keyword=count" that the
claim asserts: for member A the line contains a single space character,
while the asserted shape forces at least two. -/
theorem nodeLine_no_token_field :
    ¬ ∃ token keyword, nodeLine memA =
      token ++ " " ++ memA.private_dns ++ " " ++ keyword ++ "=" ++
        toString memA.vcpus ++ "\n" := by
  rintro ⟨t, k, h⟩
  have hc := congrArg countSpaces h
  simp only [countSpaces_append] at hc
  have h1 : countSpaces (nodeLine memA) = 1 := by decide
  have h2 : countSpaces " " = 1 := by decide
  have h3 : countSpaces memA.private_dns = 0 := by decide
  have h4 : countSpaces "=" = 0 := by decide
  have h5 : countSpaces (toString memA.vcpus) = 0 := by decide
  have h6 : countSpaces "\n" = 0 := by decide
  rw [h1, h2, h3, h4, h5, h6] at hc
  omega

/-- The id of a member built from the provider response is the queried id. -/
theorem mkMemberFromProvider_id (p : ProviderState) (id : String) :
    (mkMemberFromProvider p id).instance_id = id := rfl

/-- When every active id is already known or interrupted, the reconciler
finds nothing. -/
theorem check_replacement_eq_nil (known interr : List String) (p : ProviderState)
    (h : ∀ id ∈ p.activeIds, id ∈ known ∨ id ∈ interr) :
    check_replacement_instances known interr p = [] := by
  have : p.activeIds.filter (fun id => decide (id ∉ known ∧ id ∉ interr)) = [] := by
    rw [List.filter_eq_nil_iff]
    intro a ha
    simp only [decide_eq_true_eq, not_and, not_not]
    intro hk
    rcases h a ha with h1 | h1
    · exact absurd h1 hk
    · exact h1
  show (p.activeIds.filter (fun id => decide (id ∉ known ∧ id ∉ interr))).map
    (mkMemberFromProvider p) = []
  rw [this]
  rfl

/-- Claim C4: the Fleet Reconciler returns members for exactly the
provider-active ids that are neither known nor cumulatively interrupted,
and the empty list when no such id exists. -/
theorem check_replacement_instances_correct :
    (∀ (known interr : List String) (p : ProviderState),
      (check_replacement_instances known interr p).map (fun m => m.instance_id) =
        p.activeIds.filter (fun id => decide (id ∉ known ∧ id ∉ interr)))
    ∧ (∀ (known interr : List String) (p : ProviderState) (id : String),
      (∃ m ∈ check_replacement_instances known interr p, m.instance_id = id) ↔
        (id ∈ p.activeIds ∧ id ∉ known ∧ id ∉ interr))
    ∧ (∀ (known interr : List String) (p : ProviderState),
      (∀ id ∈ p.activeIds, id ∈ known ∨ id ∈ interr) →
      check_replacement_instances known interr p = []) := by
  refine ⟨?_, ?_, ?_⟩
  · intro known interr p
    have hcomp : ((fun m => m.instance_id) ∘ mkMemberFromProvider p) = id :=
      funext fun _ => rfl
    show ((p.activeIds.filter (fun id => decide (id ∉ known ∧ id ∉ interr))).map
      (mkMemberFromProvider p)).map (fun m => m.instance_id) = _
    rw [List.map_map, hcomp, List.map_id]
  · intro known interr p id
    constructor
    · rintro ⟨m, hm, rfl⟩
      simp only [check_replacement_instances, List.mem_map, List.mem_filter] at hm
      obtain ⟨a, ⟨ha, hpa⟩, rfl⟩ := hm
      simp only [decide_eq_true_eq] at hpa
      exact ⟨ha, hpa⟩
    · rintro ⟨ha, hk, hi⟩
      refine ⟨mkMemberFromProvider p id, ?_, rfl⟩
      simp only [check_replacement_instances, List.mem_map, List.mem_filter]
      exact ⟨id, ⟨ha, by simpa using And.intro hk hi⟩, rfl⟩
  · exact check_replacement_eq_nil

/-- Witness for C4: the implication part applied to a provider whose every
active id is already known or interrupted. -/
theorem check_replacement_instances_correct_witness :
    check_replacement_instances ["i-m", "i-s2"] ["i-s1"]
      { activeIds := ["i-m", "i-s2", "i-s1"],
        attrs := fun _ =>
          { instanceType := "c5.xlarge", isSpot := true,
            private_dns := "d", public_dns := "d",
            private_ip := "i", public_ip := "i" },
        vcpusOfType := fun _ => 4 } = [] :=
  check_replacement_instances_correct.2.2 ["i-m", "i-s2"] ["i-s1"] _ (by decide)

/-- Claim C5: running the Fleet Reconciler a second time, after the
`send_signal` roster commit and with the provider state unchanged, returns
the empty list: every active id is then either interrupted or already in
the committed roster. -/
theorem check_replacement_instances_idempotent :
    ∀ (roster : List Member) (interr : List String) (p : ProviderState),
      check_replacement_instances
        ((commitRoster roster interr
            (check_replacement_instances (roster.map (fun m => m.instance_id)) interr p)).map
          (fun m => m.instance_id))
        interr p = [] := by
  intro roster interr p
  apply check_replacement_eq_nil
  intro id hid
  by_cases hi : id ∈ interr
  · exact Or.inr hi
  · left
    simp only [commitRoster, List.map_append, List.mem_append]
    by_cases hk : id ∈ roster.map (fun m => m.instance_id)
    · left
      simp only [List.mem_map] at hk ⊢
      obtain ⟨m, hm, rfl⟩ := hk
      exact ⟨m, List.mem_filter.mpr ⟨hm, by simpa using hi⟩, rfl⟩
    · right
      simp only [List.mem_map]
      refine ⟨mkMemberFromProvider p id, ?_, rfl⟩
      simp only [check_replacement_instances, List.mem_map, List.mem_filter]
      exact ⟨id, ⟨hid, by simpa using And.intro hk hi⟩, rfl⟩

theorem joinSpace_cons_of_ne_nil (a : String) (l : List String) (h : l ≠ []) :
    joinSpace (a :: l) = a ++ " " ++ joinSpace l := by
  cases l with
  | nil => exact absurd rfl h
  | cons b t => rfl

theorem joinSpace_append_singleton : ∀ (l : List String) (x : String), l ≠ [] →
    joinSpace (l ++ [x]) = joinSpace l ++ " " ++ x
  | [], _, h => absurd rfl h
  | [a], x, _ => rfl
  | a :: b :: t, x, _ => by
      have ih := joinSpace_append_singleton (b :: t) x (by simp)
      show joinSpace (a :: ((b :: t) ++ [x])) = joinSpace (a :: b :: t) ++ " " ++ x
      rw [joinSpace_cons_of_ne_nil a ((b :: t) ++ [x]) (by simp),
          joinSpace_cons_of_ne_nil a (b :: t) (by simp), ih]
      simp [String.append_assoc]

/-- Claim C3: `send_signal` invokes the fixed rescale executable with the
positional arguments primary private address, control port 1234, the total
capacity of the pre-mutation roster (the old total, as in the end-to-end
scenario of the spec), the killed-index count, the killed indices
themselves, and the capacity joining with the new members; in the scenario
roster `[M(4), S1(4), S2(4)]` with S1 interrupted and S3(4) joining the
arguments are `10.0.0.1 1234 12 4 4 5 6 7 4`. -/
theorem rescale_command_args :
    (∀ (master : Member) (roster : List Member) (interr : List String)
        (newMs : List Member),
      find_killed_pes roster interr ≠ [] →
      rescale_command master roster interr newMs =
        joinSpace ([clientPath, master.private_ip, "1234",
                    toString (totalVcpus roster),
                    toString (find_killed_pes roster interr).length]
                   ++ (find_killed_pes roster interr).map toString
                   ++ [toString (totalVcpus newMs)]))
    ∧ rescale_command memM [memM, memS1, memS2] [memS1.instance_id] [memS3] =
        joinSpace [clientPath, "10.0.0.1", "1234", "12", "4", "4", "5", "6", "7", "4"] := by
  constructor
  · intro master roster interr newMs h
    obtain ⟨b, t, hbt⟩ : ∃ b t, (find_killed_pes roster interr).map toString = b :: t := by
      cases hk : find_killed_pes roster interr with
      | nil => exact absurd hk h
      | cons x xs => exact ⟨toString x, xs.map toString, rfl⟩
    show clientPath ++ " " ++ master.private_ip ++ " 1234 "
        ++ toString (totalVcpus roster) ++ " "
        ++ toString (find_killed_pes roster interr).length ++ " "
        ++ joinSpace ((find_killed_pes roster interr).map toString)
        ++ " " ++ toString (totalVcpus newMs) = _
    rw [hbt]
    show _ = joinSpace (clientPath :: master.private_ip :: "1234"
        :: toString (totalVcpus roster)
        :: toString (find_killed_pes roster interr).length :: ((b :: t) ++ [toString (totalVcpus newMs)]))
    rw [joinSpace_cons_of_ne_nil clientPath _ (by simp),
        joinSpace_cons_of_ne_nil master.private_ip _ (by simp),
        joinSpace_cons_of_ne_nil "1234" _ (by simp),
        joinSpace_cons_of_ne_nil (toString (totalVcpus roster)) _ (by simp),
        joinSpace_cons_of_ne_nil (toString (find_killed_pes roster interr).length) _ (by simp),
        joinSpace_append_singleton (b :: t) _ (by simp),
        (by rfl : (" 1234 " : String) = " " ++ ("1234" ++ " "))]
    simp only [String.append_assoc]
  · rfl

/-- Witness for C3: the general argument-vector form applied to the
end-to-end scenario inputs. -/
theorem rescale_command_args_witness :
    rescale_command memM [memM, memS1, memS2] [memS1.instance_id] [memS3] =
      joinSpace ([clientPath, memM.private_ip, "1234",
                  toString (totalVcpus [memM, memS1, memS2]),
                  toString (find_killed_pes [memM, memS1, memS2] [memS1.instance_id]).length]
                 ++ (find_killed_pes [memM, memS1, memS2] [memS1.instance_id]).map toString
                 ++ [toString (totalVcpus [memS3])]) :=
  rescale_command_args.1 memM [memM, memS1, memS2] [memS1.instance_id] [memS3] (by decide)

/-- The interruption-detection loop only ever appends to the cumulative
interrupted-id list. -/
theorem checkLoop_grows : ∀ (instances : List Member) (probe : Member → Option String)
    (n : Nat) (acc : List String),
    ∃ newIds, (checkLoop instances probe n acc).2 = acc ++ newIds
  | [], _, _, acc => ⟨[], (List.append_nil acc).symm⟩
  | inst :: rest, probe, n, acc => by
      match hm : inst.lifecycle with
      | .spot =>
          match hp : probe inst with
          | some output =>
              by_cases ht : hasTerminateAction output
              · obtain ⟨nw, hnw⟩ :=
                  checkLoop_grows rest probe (n + 1) (acc ++ [inst.instance_id])
                exact ⟨[inst.instance_id] ++ nw, by
                  simp only [checkLoop, hm, hp, ht, if_pos]
                  rw [hnw, List.append_assoc]⟩
              · obtain ⟨nw, hnw⟩ := checkLoop_grows rest probe n acc
                exact ⟨nw, by simp only [checkLoop, hm, hp, ht, if_neg]; exact hnw⟩
          | none =>
              obtain ⟨nw, hnw⟩ := checkLoop_grows rest probe n acc
              exact ⟨nw, by simp only [checkLoop, hm, hp]; exact hnw⟩
      | .onDemand =>
          obtain ⟨nw, hnw⟩ := checkLoop_grows rest probe n acc
          exact ⟨nw, by simp only [checkLoop, hm]; exact hnw⟩

/-- Claim C7: across Interruption Detector calls the cumulative
interrupted-id collection never shrinks: whenever `check_interruptions`
returns, its returned list extends the list passed in, so every id present
before the call is still present afterwards. -/
theorem check_interruptions_monotone :
    ∀ (instances : List Member) (interr : List String)
      (probe : Member → Option String) (res : Nat × List String),
      check_interruptions instances interr probe = Except.ok res →
      (∃ newIds, res.2 = interr ++ newIds) ∧ ∀ id ∈ interr, id ∈ res.2 := by
  intro instances interr probe res hres
  have hok : res = checkLoop instances probe 0 interr := by
    by_cases h : instances.isEmpty
    · simp [check_interruptions, h] at hres
    · simp [check_interruptions, h] at hres
      exact hres.symm
  obtain ⟨nw, hnw⟩ := checkLoop_grows instances probe 0 interr
  rw [hok, hnw]
  exact ⟨⟨nw, rfl⟩, fun id hid => List.mem_append_left nw hid⟩

/-- Witness for C7: a concrete call on `[M, S1]` whose probe reports no
notice keeps the previously accumulated id. -/
theorem check_interruptions_monotone_witness :
    (∃ newIds, (((0 : Nat), ["i-old"]) : Nat × List String).2 = ["i-old"] ++ newIds)
    ∧ ∀ id ∈ ["i-old"], id ∈ (((0 : Nat), ["i-old"]) : Nat × List String).2 :=
  check_interruptions_monotone [memM, memS1] ["i-old"] (fun _ => none)
    (0, ["i-old"]) rfl

/-- Claim C8: on a connection or protocol failure `run_command` swallows
the exception and returns the synthetic terminal status 255 (non-zero)
with a diagnostic message — as the dict
`(exit_status 255, stdout "", stderr diagnostic)` when capturing, and as
the bare status 255 otherwise — instead of propagating the failure. -/
theorem run_command_soft_failure :
    ∀ (command excMsg : String),
      run_command command (SessionOutcome.connectionError excMsg) true =
        RunResult.captured 255 "" (sshErrorMsg command excMsg)
      ∧ run_command command (SessionOutcome.connectionError excMsg) false =
        RunResult.plain 255
      ∧ (∀ capture : Bool,
          (run_command command (SessionOutcome.connectionError excMsg) capture).exitStatus
            = 255)
      ∧ (255 : Nat) ≠ 0 := by
  intro command excMsg
  refine ⟨rfl, rfl, ?_, by decide⟩
  intro capture
  cases capture <;> rfl

/-- Claim C9: `check_interruptions` fails with the validation error exactly
when invoked on an empty roster; on any non-empty roster it returns a
result instead. -/
theorem check_interruptions_empty_iff :
    ∀ (instances : List Member) (interr : List String)
      (probe : Member → Option String),
      ((∃ e, check_interruptions instances interr probe = Except.error e) ↔
        instances = [])
      ∧ (instances ≠ [] →
        ∃ res, check_interruptions instances interr probe = Except.ok res) := by
  intro instances interr probe
  constructor
  · constructor
    · rintro ⟨e, he⟩
      by_cases h : instances.isEmpty
      · exact List.isEmpty_iff.mp h
      · simp [check_interruptions, h] at he
    · rintro rfl
      exact ⟨"At least one instance ID must be provided", rfl⟩
  · intro hne
    have h : instances.isEmpty = false := by
      cases instances with
      | nil => exact absurd rfl hne
      | cons a l => rfl
    exact ⟨checkLoop instances probe 0 interr, by simp [check_interruptions, h]⟩

/-- Witness for C9: on the concrete roster `[M, S1]` the detector returns a
result and would raise on `[]`. -/
theorem check_interruptions_empty_iff_witness :
    ∃ res, check_interruptions [memM, memS1] ["i-old"] (fun _ => none) =
      Except.ok res :=
  (check_interruptions_empty_iff [memM, memS1] ["i-old"] (fun _ => none)).2
    (by decide)

end CharmAws
